import Mathlib

/-!
Verification of the fuzzy-designs repository (fuzzy combinatorial covering
designs via LP/MIP formulations). The repository consists of four finder
functions over parameters (t, v, k, lambda):

  fuzzy_designs.py       find_tvkl_fuzzy_design  (GLOP, total-weight LP)
  fuzzy_designs_glop.py  find_csp_fuzzy_design   (GLOP, total-weight LP)
  fuzzy_designs_min.py   find_min_fuzzy_design   (CBC MIP, indicator objective)
  fuzzy_designs_scip.py  find_scip_fuzzy_design  (SCIP MIP, indicator objective,
                                                  worker-thread hint)

plus common.py with the shared CLI entry point `main`.

The external LP/MIP engine is modelled as an oracle supplying the reported
objective value and per-variable solution values (floating-point numbers,
represented here as the exact rationals those doubles denote). Everything
the repository itself computes (universe construction, model building, the
theoretical bound via Python float division, the Fraction(...).limit_denominator
bridging, result extraction, and the CLI control flow) is embedded below.
-/

namespace FuzzyDesigns

/-! ## Combinatorial universe

Python (identical in all four finder files):
  points = frozenset(range(v))
  potential_blocks = frozenset(frozenset(b) for b in combinations(points, k))
  tuples = frozenset(frozenset(p) for p in combinations(points, t))

`itertools.combinations(s, r)` over a set of distinct elements yields every
r-element subset once, so the frozensets of frozensets are exactly the
r-element powersets. -/

/-- The point set {0, ..., v-1} (`frozenset(range(v))`). -/
def pointsSet (v : ℕ) : Finset ℕ := Finset.range v

/-- All k-element subsets of the point set (`combinations(points, k)`). -/
def potentialBlocks (v k : ℕ) : Finset (Finset ℕ) :=
  (pointsSet v).powersetCard k

/-- All t-element subsets of the point set (`combinations(points, t)`). -/
def tuplesUniverse (v t : ℕ) : Finset (Finset ℕ) :=
  (pointsSet v).powersetCard t

/-! ### Integer-parameter universe construction (for precondition behaviour)

The Python parameters are arbitrary ints. `range(v)` is empty for v <= 0;
`combinations(iterable, r)` raises `ValueError("r must be non-negative")`
for r < 0 and yields nothing when r exceeds the iterable length. The
`Except` value models the raised ValueError. -/

/-- Python exceptions surfaced by the modelled code paths: ValueError
(engine unavailable, negative combinations argument) and ZeroDivisionError
(the bound computation `lmb * comb(v, t) / comb(k, t)` when comb(k, t) is
0, i.e. t > k). -/
inductive PyError where
  | valueError (msg : String)
  | zeroDivisionError (msg : String)
deriving DecidableEq

/-- `frozenset(range(v))` for an arbitrary integer v: empty when v < 0. -/
def pointsZ (v : ℤ) : Finset ℕ := Finset.range v.toNat

/-- `frozenset(frozenset(c) for c in combinations(s, r))` for integer r:
raises ValueError for negative r, else yields all r-element subsets. -/
def combinationsSets (s : Finset ℕ) (r : ℤ) :
    Except PyError (Finset (Finset ℕ)) :=
  if r < 0 then Except.error (PyError.valueError "r must be non-negative")
  else Except.ok (s.powersetCard r.toNat)

/-- The three universe-construction lines shared by every finder, over raw
integer parameters, in source order (blocks before tuples). -/
def buildUniverse (t v k : ℤ) :
    Except PyError (Finset ℕ × Finset (Finset ℕ) × Finset (Finset ℕ)) := do
  let pts := pointsZ v
  let blocks ← combinationsSets pts k
  let tups ← combinationsSets pts t
  return (pts, blocks, tups)

/-! ## The solver-facing model

Optimization variables: one continuous weight variable per candidate block
in every variant, plus one binary indicator variable per candidate block in
the minimal-cardinality variants. -/

/-- A decision variable of the model: the continuous weight variable of a
block, or its binary indicator variable (min/scip variants only). -/
inductive Var where
  | weight (b : Finset ℕ)
  | indicator (b : Finset ℕ)
deriving DecidableEq

/-- A linear constraint: bounds (none encodes an infinite bound) and the
coefficient of every decision variable. OR-tools leaves coefficients that
were never set at 0, so a total coefficient function is faithful. -/
structure LinConstraint where
  lb : Option ℚ
  ub : Option ℚ
  coeff : Var → ℚ

/-- The model handed to the external engine: variable bounds (none when the
variable is not created), integrality flags, the coverage constraint built
for each tuple of the tuple universe, the optional per-block linking
constraints, the objective coefficients, the optimization direction, and
the optional worker-thread hint. -/
structure Model where
  blocks : Finset (Finset ℕ)
  tuples : Finset (Finset ℕ)
  varBounds : Var → Option (ℚ × ℚ)
  varInteger : Var → Bool
  coverage : Finset ℕ → LinConstraint
  linking : Option (Finset ℕ → LinConstraint)
  objCoeff : Var → ℚ
  minimize : Bool
  threads : Option ℤ

/-- The coverage constraint built for a tuple, identical in all four files:
  ct = solver.Constraint(lmb, lmb, ...)
  for block, variable in block_variables.items():
      ct.SetCoefficient(variable, 1 if tup.issubset(block) else 0)
Indicator variables never receive a coefficient, hence 0. -/
def coverageConstraint (lmb : ℤ) (tup : Finset ℕ) : LinConstraint where
  lb := some (lmb : ℚ)
  ub := some (lmb : ℚ)
  coeff := fun x =>
    match x with
    | Var.weight b => if tup ⊆ b then 1 else 0
    | Var.indicator _ => 0

/-- The linking constraint `solver.Add(xb >= bb)` of the min/scip variants
for block b, i.e. indicator(b) - weight(b) >= 0. -/
def linkingConstraint (b : Finset ℕ) : LinConstraint where
  lb := some 0
  ub := none
  coeff := fun x =>
    match x with
    | Var.weight c => if c = b then -1 else 0
    | Var.indicator c => if c = b then 1 else 0

/-- The model built by fuzzy_designs.find_tvkl_fuzzy_design: one continuous
weight variable per block bounded [0, lmb], one coverage constraint per
tuple, objective = minimize the sum of all weight variables, no indicator
variables, no linking constraints, no thread hint. -/
def tvklModel (t v k : ℕ) (lmb : ℤ) : Model where
  blocks := potentialBlocks v k
  tuples := tuplesUniverse v t
  varBounds := fun x =>
    match x with
    | Var.weight b =>
        if b ∈ potentialBlocks v k then some (0, (lmb : ℚ)) else none
    | Var.indicator _ => none
  varInteger := fun _ => false
  coverage := coverageConstraint lmb
  linking := none
  objCoeff := fun x =>
    match x with
    | Var.weight b => if b ∈ potentialBlocks v k then 1 else 0
    | Var.indicator _ => 0
  minimize := true
  threads := none

/-- The model built by fuzzy_designs_glop.find_csp_fuzzy_design; the file
duplicates fuzzy_designs.py line for line, so the model coincides. -/
def glopModel (t v k : ℕ) (lmb : ℤ) : Model where
  blocks := potentialBlocks v k
  tuples := tuplesUniverse v t
  varBounds := fun x =>
    match x with
    | Var.weight b =>
        if b ∈ potentialBlocks v k then some (0, (lmb : ℚ)) else none
    | Var.indicator _ => none
  varInteger := fun _ => false
  coverage := coverageConstraint lmb
  linking := none
  objCoeff := fun x =>
    match x with
    | Var.weight b => if b ∈ potentialBlocks v k then 1 else 0
    | Var.indicator _ => 0
  minimize := true
  threads := none

/-- The model built by fuzzy_designs_min.find_min_fuzzy_design:
weight variables `solver.NumVar(0, lmb, ...)`, binary indicator variables
`solver.IntVar(0, 1, ...)`, the coverage constraints, the linking
constraints `xb >= bb`, objective = minimize the sum of the indicator
variables. No thread hint. -/
def minModel (t v k : ℕ) (lmb : ℤ) : Model where
  blocks := potentialBlocks v k
  tuples := tuplesUniverse v t
  varBounds := fun x =>
    match x with
    | Var.weight b =>
        if b ∈ potentialBlocks v k then some (0, (lmb : ℚ)) else none
    | Var.indicator b =>
        if b ∈ potentialBlocks v k then some (0, 1) else none
  varInteger := fun x =>
    match x with
    | Var.weight _ => false
    | Var.indicator _ => true
  coverage := coverageConstraint lmb
  linking := some linkingConstraint
  objCoeff := fun x =>
    match x with
    | Var.weight _ => 0
    | Var.indicator b => if b ∈ potentialBlocks v k then 1 else 0
  minimize := true
  threads := none

/-- The model built by fuzzy_designs_scip.find_scip_fuzzy_design: as the
min variant, except the weight variables are `solver.NumVar(0, 1, ...)`
(upper bound 1, not lmb) and `solver.SetNumThreads(os.cpu_count() - 1)` is
issued; nproc stands for the externally supplied `os.cpu_count()`. -/
def scipModel (nproc : ℕ) (t v k : ℕ) (lmb : ℤ) : Model where
  blocks := potentialBlocks v k
  tuples := tuplesUniverse v t
  varBounds := fun x =>
    match x with
    | Var.weight b =>
        if b ∈ potentialBlocks v k then some (0, 1) else none
    | Var.indicator b =>
        if b ∈ potentialBlocks v k then some (0, 1) else none
  varInteger := fun x =>
    match x with
    | Var.weight _ => false
    | Var.indicator _ => true
  coverage := coverageConstraint lmb
  linking := some linkingConstraint
  objCoeff := fun x =>
    match x with
    | Var.weight _ => 0
    | Var.indicator b => if b ∈ potentialBlocks v k then 1 else 0
  minimize := true
  threads := some ((nproc : ℤ) - 1)

/-! ## Numeric bridging

The Python code mixes three numeric domains:
* exact ints (`math.comb`, lmb),
* IEEE-754 doubles (`a / b` on ints is true division, producing the double
  nearest the exact quotient; the values the engine reports are doubles),
* exact rationals (`fractions.Fraction`), with
  `Fraction(x).limit_denominator()` bridging a double back to a rational of
  denominator at most 1000000 (the CPython default).

A double is represented here by the exact rational it denotes. `pyFloat`
models rounding a real (rational) value to the nearest double, ties to
even. The model uses an unbounded exponent, so it is faithful for inputs
that are 0 or of magnitude in [2^(-1022), 2^1024) (no overflow to inf, no
subnormal loss); every quantity examined in the theorems below is 0 or an
integer below 2^60, safely inside that range, and the fuel of `log2fuel`
covers magnitudes below 2^1100. -/

/-- Floor of the base-2 logarithm by repeated halving; the first argument
is recursion fuel, and fuel f is exact for every n < 2 ^ f. -/
def log2fuel : ℕ → ℕ → ℕ
  | 0, _ => 0
  | f + 1, n => if 2 ≤ n then log2fuel f (n / 2) + 1 else 0

/-- Floor of the base-2 logarithm, exact for 1 ≤ n < 2 ^ 1100. -/
def natLog2 (n : ℕ) : ℕ := log2fuel 1100 n

/-- The rational 2 ^ e for an integer exponent, built from natural-number
powers so that it evaluates by kernel reduction (it equals the Mathlib
zpow, see `pow2Z_eq_zpow`). -/
def pow2Z (e : ℤ) : ℚ :=
  match e with
  | Int.ofNat n => ((2 ^ n : ℕ) : ℚ)
  | Int.negSucc n => 1 / ((2 ^ (n + 1) : ℕ) : ℚ)

/-- Floor of a rational, computed from the normalized fraction (the
denominator is positive, so floor division of numerator by denominator is
the floor; it equals the Mathlib floor, see `qfloor_eq_floor`). -/
def qfloor (s : ℚ) : ℤ := Int.fdiv s.num (s.den : ℤ)

/-- Floor of the base-2 logarithm of a positive rational: the unique e with
2 ^ e ≤ q < 2 ^ (e + 1). Computed from the bit lengths of numerator and
denominator, which pin it down to within one. -/
def log2floorQ (q : ℚ) : ℤ :=
  if q < pow2Z ((natLog2 q.num.toNat : ℤ) - (natLog2 q.den : ℤ)) then
    (natLog2 q.num.toNat : ℤ) - (natLog2 q.den : ℤ) - 1
  else
    (natLog2 q.num.toNat : ℤ) - (natLog2 q.den : ℤ)

/-- Round a rational to the nearest integer, ties to even. -/
def roundHalfEvenQ (s : ℚ) : ℤ :=
  if s - (qfloor s : ℚ) < 1 / 2 then qfloor s
  else if 1 / 2 < s - (qfloor s : ℚ) then qfloor s + 1
  else if qfloor s % 2 = 0 then qfloor s else qfloor s + 1

/-- The double nearest a positive rational: scale into [2^52, 2^53), round
the 53-bit significand to the nearest integer (ties to even), scale back. -/
def pyFloatPos (q : ℚ) : ℚ :=
  ((roundHalfEvenQ (q * pow2Z ((52 : ℤ) - log2floorQ q)) : ℤ) : ℚ) *
    pow2Z (log2floorQ q - 52)

/-- The double nearest a rational (round to nearest, ties to even): the
value produced by Python float conversion and by true division of exact
ints. The exponent is unbounded, so this models Python exactly only for
inputs that are 0 or of magnitude in the normal double range
[2^(-1022), roughly 2^1024): beyond the top of that range Python raises
OverflowError, and below it Python rounds subnormally or to 0.0. Every
theorem below that evaluates this function carries hypotheses
(t ≤ k ≤ v, and the magnitude of lmb * comb(v, t) below 2^1020) under
which the quotient fed to it is 0 or of magnitude in [1, 2^1020), with
numerator and denominator below the 2^1100 fuel of natLog2, so the model
and Python agree on the whole asserted domain. -/
def pyFloat (q : ℚ) : ℚ :=
  if q = 0 then 0
  else if 0 < q then pyFloatPos q
  else -(pyFloatPos (-q))

/-- The continued-fraction loop of CPython `Fraction.limit_denominator`.
State (p0, q0, p1, q1) are the convergents, (n, d) the remaining quotient.
The fuel is an upper bound on the iteration count; d = n mod d strictly
decreases, so fuel = the initial denominator always suffices (the d ≤ 0
arm is unreachable and only keeps the recursion total). -/
def limitDenLoop (md : ℤ) : ℕ → ℤ → ℤ → ℤ → ℤ → ℤ → ℤ → ℤ × ℤ × ℤ × ℤ
  | 0, p0, q0, p1, q1, _, _ => (p0, q0, p1, q1)
  | f + 1, p0, q0, p1, q1, n, d =>
    if d ≤ 0 then (p0, q0, p1, q1)
    else
      let a := Int.fdiv n d
      let q2 := q0 + a * q1
      if md < q2 then (p0, q0, p1, q1)
      else limitDenLoop md f p1 q1 (p0 + a * p1) q2 d (n - a * d)

/-- CPython `Fraction.limit_denominator(md)` (fractions.py, Python 3.11):
the closest rational with denominator at most md, via the Stern-Brocot
convergents of the continued-fraction expansion. Callers in this code base
always pass the default md = 1000000 >= 1. -/
def limitDen (q : ℚ) (md : ℕ) : ℚ :=
  if q.den ≤ md then q
  else
    match limitDenLoop (md : ℤ) q.den 0 1 1 0 q.num (q.den : ℤ) with
    | (p0, q0, p1, q1) =>
      let k := Int.fdiv ((md : ℤ) - q0) q1
      let bound1 : ℚ := ((p0 + k * p1 : ℤ) : ℚ) / ((q0 + k * q1 : ℤ) : ℚ)
      let bound2 : ℚ := ((p1 : ℤ) : ℚ) / ((q1 : ℤ) : ℚ)
      if |bound2 - q| ≤ |bound1 - q| then bound2 else bound1

/-- `Fraction(x).limit_denominator()` with the CPython default bound. -/
def limitDen1M (q : ℚ) : ℚ := limitDen q 1000000

/-- `solution_size = Fraction(lmb * comb(v, t) / comb(k, t)).limit_denominator()`
of fuzzy_designs.py and fuzzy_designs_glop.py: the product and the binomial
coefficients are exact ints, but `/` is Python float true division, so the
exact quotient is rounded to the nearest double before the Fraction bridge.
For t > k the Python line raises ZeroDivisionError (comb(k, t) = 0): the
call sites `find_tvkl_fuzzy_design` and `find_csp_fuzzy_design` model that
raise with an explicit divisor guard and consult this value only when the
divisor is nonzero, so the total division here is never asserted outside
t ≤ k. -/
def solutionSize (t v k : ℕ) (lmb : ℤ) : ℚ :=
  limitDen1M (pyFloat (((lmb : ℚ) * (Nat.choose v t : ℚ)) / (Nat.choose k t : ℚ)))

/-! ## The finder functions

The engine is external. `Option Oracle` models
`pywraplp.Solver.CreateSolver(...)`: none when no engine of the requested
kind can be created, otherwise the oracle carrying what the engine reports
after the `solver.Solve()` call: `objective.Value()` and each
`variable.solution_value()`, doubles represented as exact rationals. -/

/-- What the external engine reports after the solve call. -/
structure Oracle where
  objValue : ℚ
  value : Finset ℕ → ℚ

/-- A concrete engine report used by the concrete instantiations below:
reported objective 5, all reported solution values 0. -/
def zeroOracle : Oracle where
  objValue := 5
  value := fun _ => 0

/-- The extraction comprehension, shared by all four finders:
  {b: s for b, v in block_variables.items()
        if (s := Fraction(v.solution_value()).limit_denominator())}
A block is kept exactly when its bridged rational weight is nonzero
(Fraction truthiness). The resulting dict is modelled as its set of
key-value pairs. -/
def extractDesign (blocks : Finset (Finset ℕ)) (vals : Finset ℕ → ℚ) :
    Finset (Finset ℕ × ℚ) :=
  (blocks.filter fun b => limitDen1M (vals b) ≠ 0).image
    fun b => (b, limitDen1M (vals b))

/-- A returned solution: (solution size, fuzzy design). -/
def Solution : Type := ℚ × Finset (Finset ℕ × ℚ)

/-- fuzzy_designs.find_tvkl_fuzzy_design, result path: raise ValueError if
no engine; then the `solution_size` line (before the solve call) divides
by comb(k, t) and raises ZeroDivisionError when that is 0, i.e. when
t > k; otherwise bridge the reported objective, compare with
solution_size, return None on mismatch (after a logged warning), else
return (solution_size, extracted design). The model-building statements
are captured by `tvklModel`; they do not influence the returned value,
which depends only on the parameters and what the engine reports. The
nonzero-divisor branch evaluates `solutionSize`, whose float model is
faithful for t ≤ k ≤ v with the magnitude of lmb * comb(v, t) below the
double overflow range (see `pyFloat`); the theorems below stay inside
that domain. -/
def find_tvkl_fuzzy_design (t v k : ℕ) (lmb : ℤ) (engine : Option Oracle) :
    Except PyError (Option (ℚ × Finset (Finset ℕ × ℚ))) :=
  match engine with
  | none => Except.error (PyError.valueError "Could not create solver.")
  | some o =>
    if Nat.choose k t = 0 then
      Except.error (PyError.zeroDivisionError "division by zero")
    else if limitDen1M o.objValue ≠ solutionSize t v k lmb then Except.ok none
    else
      Except.ok (some (solutionSize t v k lmb,
        extractDesign (potentialBlocks v k) o.value))

/-- fuzzy_designs_glop.find_csp_fuzzy_design, result path: line-for-line
duplicate of find_tvkl_fuzzy_design, including the ZeroDivisionError of
the `solution_size` line when comb(k, t) = 0. -/
def find_csp_fuzzy_design (t v k : ℕ) (lmb : ℤ) (engine : Option Oracle) :
    Except PyError (Option (ℚ × Finset (Finset ℕ × ℚ))) :=
  match engine with
  | none => Except.error (PyError.valueError "Could not create solver.")
  | some o =>
    if Nat.choose k t = 0 then
      Except.error (PyError.zeroDivisionError "division by zero")
    else if limitDen1M o.objValue ≠ solutionSize t v k lmb then Except.ok none
    else
      Except.ok (some (solutionSize t v k lmb,
        extractDesign (potentialBlocks v k) o.value))

/-- fuzzy_designs_min.find_min_fuzzy_design, result path: raise ValueError
if no engine; otherwise bridge the reported objective and return it with
the extracted design unconditionally. No comparison against solution_size
is performed and None is never returned. -/
def find_min_fuzzy_design (t v k : ℕ) (lmb : ℤ) (engine : Option Oracle) :
    Except PyError (Option (ℚ × Finset (Finset ℕ × ℚ))) :=
  match engine with
  | none => Except.error (PyError.valueError "Could not create solver.")
  | some o =>
    Except.ok (some (limitDen1M o.objValue,
      extractDesign (potentialBlocks v k) o.value))

/-- fuzzy_designs_scip.find_scip_fuzzy_design, result path: as the min
variant (the thread hint only configures the engine, see `scipModel`). -/
def find_scip_fuzzy_design (t v k : ℕ) (lmb : ℤ) (engine : Option Oracle) :
    Except PyError (Option (ℚ × Finset (Finset ℕ × ℚ))) :=
  match engine with
  | none => Except.error (PyError.valueError "Could not create SCIP solver.")
  | some o =>
    Except.ok (some (limitDen1M o.objValue,
      extractDesign (potentialBlocks v k) o.value))

/-! ## The CLI entry point (common.py main, duplicated in fuzzy_designs.py)

  def main(optimizer):
      executable = argv[0]
      try:
          t, v, k, lmb = map(int, argv[1:])
      except ValueError as ex:
          print(usage); print(exception text)
      try:
          solution_size, fuzzy_design = optimizer(t, v, k, lmb)
          if fuzzy_design is not None: ...print the report...
          else: print(could-not-find message)
      except ValueError as ex:
          print(exception text)

Each command-line token after the program name is modelled by the integer
it parses to, or none when int() rejects it. Output is modelled as the
list of print events in order. Note the first except clause does not
return: when parsing fails, execution continues into the second try block,
where t, v, k, lmb were never bound, and evaluating the arguments of the
optimizer call raises UnboundLocalError, which `except ValueError` does
not catch. Note also that when the optimizer returns None, the tuple
unpacking itself raises an uncaught TypeError, so the could-not-find
branch is unreachable. -/

/-- The print statements of main, by kind. -/
inductive PrintEvent where
  | usage
  | parseExceptionText
  | solutionReport
  | noDesignMessage
  | solveExceptionText
deriving DecidableEq

/-- How a call to main ends: a normal return, or an exception escaping
(the second try block catches only ValueError, so UnboundLocalError,
TypeError and ZeroDivisionError all propagate out of main). -/
inductive MainOutcome where
  | normal (printed : List PrintEvent)
  | uncaughtUnboundLocal (printed : List PrintEvent)
  | uncaughtTypeError (printed : List PrintEvent)
  | uncaughtZeroDivision (printed : List PrintEvent)
deriving DecidableEq

/-- `t, v, k, lmb = map(int, argv[1:])`: succeeds exactly when there are
four tokens and each parses as an int; otherwise ValueError is raised
inside the first try block and nothing is bound. -/
def parseArgs (args : List (Option ℤ)) : Option (ℤ × ℤ × ℤ × ℤ) :=
  match args with
  | [some a, some b, some c, some d] => some (a, b, c, d)
  | _ => none

/-- common.main applied to an optimizer (fuzzy_designs.main inlines the
same control flow with its own finder). The optimizer itself is external
to this claim and abstracted as a function argument, as in the source. -/
def common_main (args : List (Option ℤ))
    (optimizer : ℤ → ℤ → ℤ → ℤ →
      Except PyError (Option (ℚ × Finset (Finset ℕ × ℚ)))) : MainOutcome :=
  match parseArgs args with
  | none =>
    MainOutcome.uncaughtUnboundLocal
      [PrintEvent.usage, PrintEvent.parseExceptionText]
  | some (t, v, k, lmb) =>
    match optimizer t v k lmb with
    | Except.error (PyError.valueError _) =>
      MainOutcome.normal [PrintEvent.solveExceptionText]
    | Except.error (PyError.zeroDivisionError _) =>
      MainOutcome.uncaughtZeroDivision []
    | Except.ok none => MainOutcome.uncaughtTypeError []
    | Except.ok (some _) => MainOutcome.normal [PrintEvent.solutionReport]

/-! ## Properties of the numeric bridging -/

lemma pow2Z_eq_zpow (e : ℤ) : pow2Z e = (2 : ℚ) ^ e := by
  match e with
  | Int.ofNat n =>
    show ((2 ^ n : ℕ) : ℚ) = (2 : ℚ) ^ (n : ℤ)
    rw [zpow_natCast]
    push_cast
    ring
  | Int.negSucc n =>
    show 1 / ((2 ^ (n + 1) : ℕ) : ℚ) = (2 : ℚ) ^ (Int.negSucc n)
    rw [zpow_negSucc, one_div]
    push_cast
    ring_nf

lemma qfloor_eq_floor (s : ℚ) : qfloor s = ⌊s⌋ := by
  rw [qfloor, Int.fdiv_eq_ediv _ (by positivity)]
  conv_rhs => rw [← Rat.num_div_den s]
  rw [Rat.floor_intCast_div_natCast]

lemma roundHalfEvenQ_intCast (m : ℤ) : roundHalfEvenQ (m : ℚ) = m := by
  have hq : qfloor (m : ℚ) = m := by
    rw [qfloor_eq_floor, Int.floor_intCast]
  rw [roundHalfEvenQ, hq]
  norm_num

lemma roundHalfEvenQ_intCast_add_half (m : ℤ) :
    roundHalfEvenQ ((m : ℚ) + 1 / 2) = if m % 2 = 0 then m else m + 1 := by
  have hq : qfloor ((m : ℚ) + 1 / 2) = m := by
    rw [qfloor_eq_floor, Int.floor_int_add]
    norm_num [Int.floor_eq_zero_iff]
  rw [roundHalfEvenQ, hq]
  norm_num

lemma log2fuel_spec : ∀ (f n : ℕ), 1 ≤ n → n < 2 ^ f →
    2 ^ log2fuel f n ≤ n ∧ n < 2 ^ (log2fuel f n + 1)
  | 0, n, h1, h2 => by
    exact absurd h2 (by omega)
  | f + 1, n, h1, h2 => by
    rw [log2fuel]
    by_cases h : 2 ≤ n
    · have hd1 : 1 ≤ n / 2 := by omega
      have hd2 : n / 2 < 2 ^ f := by
        rw [pow_succ] at h2
        omega
      have ih := log2fuel_spec f (n / 2) hd1 hd2
      rw [if_pos h]
      constructor
      · calc 2 ^ (log2fuel f (n / 2) + 1) = 2 ^ log2fuel f (n / 2) * 2 := by
              rw [pow_succ]
          _ ≤ n / 2 * 2 := by omega
          _ ≤ n := by omega
      · calc n < (n / 2) * 2 + 2 := by omega
          _ ≤ 2 ^ (log2fuel f (n / 2) + 1) * 2 := by
              have := ih.2
              omega
          _ = 2 ^ (log2fuel f (n / 2) + 1 + 1) := by ring
    · rw [if_neg h]
      constructor
      · simpa using h1
      · omega

lemma natLog2_spec (n : ℕ) (h1 : 1 ≤ n) (h2 : n < 2 ^ 1100) :
    2 ^ natLog2 n ≤ n ∧ n < 2 ^ (natLog2 n + 1) :=
  log2fuel_spec 1100 n h1 h2

lemma log2floorQ_natCast (n : ℕ) (h1 : n ≠ 0) (h2 : n < 2 ^ 1100) :
    log2floorQ (n : ℚ) = natLog2 n := by
  have hle := (natLog2_spec n (by omega) h2).1
  have hnum : ((n : ℚ)).num.toNat = n := by
    rw [Rat.num_natCast, Int.toNat_natCast]
  have hden : ((n : ℚ)).den = 1 := Rat.den_natCast n
  have hnl1 : natLog2 1 = 0 := rfl
  rw [log2floorQ, hnum, hden, hnl1]
  have he : (natLog2 n : ℤ) - (0 : ℕ) = ((natLog2 n : ℕ) : ℤ) := by
    push_cast
    ring
  have hnot : ¬ ((n : ℚ) < pow2Z ((natLog2 n : ℕ) : ℤ)) := by
    rw [pow2Z_eq_zpow, zpow_natCast, not_lt]
    calc ((2 : ℚ)) ^ natLog2 n = ((2 ^ natLog2 n : ℕ) : ℚ) := by push_cast; ring
      _ ≤ (n : ℚ) := by exact_mod_cast hle
  rw [he, if_neg hnot]

lemma pyFloatPos_natCast (n : ℕ) (h1 : n ≠ 0) (h2 : n < 2 ^ 53) :
    pyFloatPos (n : ℚ) = n := by
  have hbig : n < 2 ^ 1100 := lt_of_lt_of_le h2 (by norm_num)
  have ha := natLog2_spec n (by omega) hbig
  set a := natLog2 n with hadef
  have ha52 : a ≤ 52 := by
    by_contra hcon
    have : 2 ^ 53 ≤ 2 ^ a := Nat.pow_le_pow_right (by norm_num) (by omega)
    omega
  have hlog : log2floorQ (n : ℚ) = a := log2floorQ_natCast n h1 hbig
  have harg : (n : ℚ) * pow2Z ((52 : ℤ) - a) = ((n * 2 ^ (52 - a) : ℕ) : ℚ) := by
    rw [pow2Z_eq_zpow]
    have he : ((52 : ℤ) - a) = ((52 - a : ℕ) : ℤ) := by
      push_cast [ha52]
      ring
    rw [he, zpow_natCast]
    push_cast
    ring
  rw [pyFloatPos, hlog, harg]
  have hmid : roundHalfEvenQ (((n * 2 ^ (52 - a) : ℕ) : ℚ)) =
      ((n * 2 ^ (52 - a) : ℕ) : ℤ) := by
    have hc : (((n * 2 ^ (52 - a) : ℕ) : ℚ)) = (((n * 2 ^ (52 - a) : ℕ) : ℤ) : ℚ) := by
      push_cast
      ring
    rw [hc, roundHalfEvenQ_intCast]
  rw [hmid, pow2Z_eq_zpow]
  push_cast
  rw [mul_assoc, ← zpow_natCast (2 : ℚ) (52 - a), ← zpow_add₀ (two_ne_zero)]
  have he2 : ((52 - a : ℕ) : ℤ) + ((a : ℤ) - 52) = 0 := by
    push_cast [ha52]
    ring
  rw [he2, zpow_zero, mul_one]

lemma pyFloat_natCast (n : ℕ) (h2 : n < 2 ^ 53) : pyFloat (n : ℚ) = n := by
  by_cases h0 : n = 0
  · subst h0
    rw [pyFloat]
    norm_num
  · rw [pyFloat, if_neg (by exact_mod_cast h0), if_pos (by positivity),
      pyFloatPos_natCast n h0 h2]

lemma limitDen_den_le (q : ℚ) (md : ℕ) (h : q.den ≤ md) : limitDen q md = q := by
  rw [limitDen, if_pos h]

lemma limitDen1M_natCast (n : ℕ) : limitDen1M (n : ℚ) = n := by
  rw [limitDen1M, limitDen_den_le]
  rw [Rat.den_natCast]
  norm_num

lemma natLog2_two_pow_53_add_one : natLog2 9007199254740993 = 53 := by decide

/-- 2 ^ 53 + 1 is the smallest positive integer not representable as a
double: it lies halfway between 2 ^ 53 and 2 ^ 53 + 2, and the tie rounds
to the even significand, giving 2 ^ 53. -/
lemma pyFloat_two_pow_53_add_one :
    pyFloat ((9007199254740993 : ℕ) : ℚ) = ((9007199254740992 : ℕ) : ℚ) := by
  have h0 : ((9007199254740993 : ℕ) : ℚ) ≠ 0 := by norm_num
  have hpos : (0 : ℚ) < ((9007199254740993 : ℕ) : ℚ) := by norm_num
  rw [pyFloat, if_neg h0, if_pos hpos]
  have hlog : log2floorQ ((9007199254740993 : ℕ) : ℚ) = 53 := by
    rw [log2floorQ_natCast 9007199254740993 (by norm_num) (by norm_num),
      natLog2_two_pow_53_add_one]
    norm_num
  rw [pyFloatPos, hlog]
  have harg : ((9007199254740993 : ℕ) : ℚ) * pow2Z ((52 : ℤ) - 53) =
      ((4503599627370496 : ℤ) : ℚ) + 1 / 2 := by
    rw [pow2Z_eq_zpow]
    norm_num
  rw [harg, roundHalfEvenQ_intCast_add_half, pow2Z_eq_zpow]
  norm_num

lemma solutionSize_two_pow_53_add_one :
    solutionSize 1 9007199254740993 1 1 = ((9007199254740992 : ℕ) : ℚ) := by
  rw [solutionSize, Nat.choose_one_right, Nat.choose_self]
  have harg : ((1 : ℤ) : ℚ) * ((9007199254740993 : ℕ) : ℚ) / ((1 : ℕ) : ℚ) =
      ((9007199254740993 : ℕ) : ℚ) := by norm_num
  rw [harg, pyFloat_two_pow_53_add_one, limitDen1M_natCast]

lemma limitDen1M_five : limitDen1M (5 : ℚ) = 5 := by
  have h : ((5 : ℕ) : ℚ) = (5 : ℚ) := by norm_num
  rw [← h, limitDen1M_natCast]

lemma solutionSize_1111 : solutionSize 1 1 1 1 = 1 := by
  rw [solutionSize, Nat.choose_self]
  have harg : ((1 : ℤ) : ℚ) * ((1 : ℕ) : ℚ) / ((1 : ℕ) : ℚ) = ((1 : ℕ) : ℚ) := by
    norm_num
  rw [harg, pyFloat_natCast 1 (by norm_num), limitDen1M_natCast]
  norm_num

lemma extractDesign_zero_vals (blocks : Finset (Finset ℕ)) :
    extractDesign blocks (fun _ => 0) = ∅ := by
  have h0 : limitDen1M (0 : ℚ) = 0 := by
    have h : ((0 : ℕ) : ℚ) = (0 : ℚ) := by norm_num
    rw [← h, limitDen1M_natCast, h]
  rw [extractDesign]
  simp [h0]

/-! ## The claims -/

/-- Claim C1, counterexample: the minimal-cardinality variant performs no
validation of the reported objective against the theoretical bound. At
(t, v, k, lambda) = (1, 1, 1, 1) the bound is 1, yet when the engine
reports objective value 5 the function still returns a solution pair
(5, design) rather than the absence result None that the claim requires
on a mismatch. -/
theorem C1_counterexample :
    limitDen1M (5 : ℚ) ≠ solutionSize 1 1 1 1 ∧
    find_min_fuzzy_design 1 1 1 1
        (some { objValue := 5, value := fun _ => 0 }) =
      Except.ok (some (5, (∅ : Finset (Finset ℕ × ℚ)))) := by
  constructor
  · rw [limitDen1M_five, solutionSize_1111]
    norm_num
  · show Except.ok (some (limitDen1M (5 : ℚ),
      extractDesign (potentialBlocks 1 1) (fun _ => 0))) = _
    rw [limitDen1M_five, extractDesign_zero_vals]

/-- Claim C1, amended: only the two total-weight variants
(find_tvkl_fuzzy_design and find_csp_fuzzy_design) validate the reported
objective, and only on the parameter domain where the bound computation
succeeds. For t > k (comb(k, t) = 0) they raise an uncaught
ZeroDivisionError at the bound computation, before the solve call. For
t ≤ k (with k ≤ v and the magnitude of lmb * comb(v, t) below the double
overflow range, so the float model is exact) they bridge the reported
objective to a rational by bounded-denominator approximation and compare
it with the computed bound, returning the pair (bound, extracted design)
exactly on equality and the absence result None (after a logged warning)
exactly on inequality. The minimal-cardinality variants
(find_min_fuzzy_design, find_scip_fuzzy_design) never compute the bound,
perform no comparison, and always return the pair (bridged objective,
extracted design), never None. -/
theorem C1_amended_theorem (t v k : ℕ) (lmb : ℤ) (o : Oracle)
    (hk : k ≤ v) (hmag : lmb.natAbs * Nat.choose v t < 2 ^ 1020) :
    (Nat.choose k t = 0 →
      find_tvkl_fuzzy_design t v k lmb (some o) =
        Except.error (PyError.zeroDivisionError "division by zero") ∧
      find_csp_fuzzy_design t v k lmb (some o) =
        Except.error (PyError.zeroDivisionError "division by zero")) ∧
    (t ≤ k →
      (find_tvkl_fuzzy_design t v k lmb (some o) = Except.ok none ↔
        limitDen1M o.objValue ≠ solutionSize t v k lmb) ∧
      (find_tvkl_fuzzy_design t v k lmb (some o) =
          Except.ok (some (solutionSize t v k lmb,
            extractDesign (potentialBlocks v k) o.value)) ↔
        limitDen1M o.objValue = solutionSize t v k lmb) ∧
      (find_csp_fuzzy_design t v k lmb (some o) = Except.ok none ↔
        limitDen1M o.objValue ≠ solutionSize t v k lmb) ∧
      (find_csp_fuzzy_design t v k lmb (some o) =
          Except.ok (some (solutionSize t v k lmb,
            extractDesign (potentialBlocks v k) o.value)) ↔
        limitDen1M o.objValue = solutionSize t v k lmb)) ∧
    find_min_fuzzy_design t v k lmb (some o) =
      Except.ok (some (limitDen1M o.objValue,
        extractDesign (potentialBlocks v k) o.value)) ∧
    find_scip_fuzzy_design t v k lmb (some o) =
      Except.ok (some (limitDen1M o.objValue,
        extractDesign (potentialBlocks v k) o.value)) := by
  refine ⟨?_, ?_, rfl, rfl⟩
  · intro hzero
    constructor <;>
      simp only [find_tvkl_fuzzy_design, find_csp_fuzzy_design, if_pos hzero]
  · intro ht
    have hch : ¬ (Nat.choose k t = 0) := (Nat.choose_pos ht).ne'
    simp only [find_tvkl_fuzzy_design, find_csp_fuzzy_design, if_neg hch]
    by_cases h : limitDen1M o.objValue = solutionSize t v k lmb
    · simp [h]
    · simp [h]

/-- Claim C1, witness for the amended theorem: instantiated at
(t, v, k, lambda) = (1, 1, 1, 1) with the concrete engine report
zeroOracle, exercising the domain hypotheses and the t ≤ k branch. -/
theorem C1_amended_witness :
    ((1 : ℕ) ≤ 1 ∧ (1 : ℤ).natAbs * Nat.choose 1 1 < 2 ^ 1020) ∧
    (find_tvkl_fuzzy_design 1 1 1 1 (some zeroOracle) = Except.ok none ↔
      limitDen1M zeroOracle.objValue ≠ solutionSize 1 1 1 1) :=
  ⟨⟨le_refl 1, by norm_num⟩,
    ((C1_amended_theorem 1 1 1 1 zeroOracle (le_refl 1) (by norm_num)).2.1
      (le_refl 1)).1⟩

/-- Claim C2, counterexample: the theoretical bound is computed with
Python float true division, so it is not the exact rational
lambda * C(v,t) / C(k,t) for all valid parameters. At t = k = lambda = 1
and v = 2^53 + 1 (valid: 0 ≤ t ≤ k ≤ v), the exact value 2^53 + 1 is
rounded to the double 2^53 before the Fraction bridge, and the computed
bound is 2^53, not 2^53 + 1. -/
theorem C2_counterexample :
    solutionSize 1 9007199254740993 1 1 ≠
      ((1 : ℤ) : ℚ) * (Nat.choose 9007199254740993 1 : ℚ) /
        (Nat.choose 1 1 : ℚ) := by
  rw [solutionSize_two_pow_53_add_one, Nat.choose_one_right, Nat.choose_self]
  norm_num

/-- Claim C2, amended: the computed bound equals the exact rational
lambda * C(v,t) / C(k,t) whenever that exact value is an integer below
2^53 (so that float true division is exact and the Fraction bridge is the
identity), but not for all valid parameters. -/
theorem C2_amended_theorem (t v k : ℕ) (lmb : ℤ)
    (h1 : t ≤ k) (h2 : k ≤ v) (hl : 0 ≤ lmb) (n : ℕ) (hlt : n < 2 ^ 53)
    (hn : ((lmb : ℚ) * (Nat.choose v t : ℚ)) / (Nat.choose k t : ℚ) = (n : ℚ)) :
    solutionSize t v k lmb =
      ((lmb : ℚ) * (Nat.choose v t : ℚ)) / (Nat.choose k t : ℚ) := by
  rw [solutionSize, hn, pyFloat_natCast n hlt, limitDen1M_natCast]

/-- Claim C2, witness for the amended theorem: at (t, v, k, lambda) =
(2, 4, 3, 1) the exact bound is 1 * C(4,2) / C(3,2) = 6/3 = 2 < 2^53, and
the computed bound matches it exactly. -/
theorem C2_amended_witness :
    (2 ≤ 3 ∧ 3 ≤ 4 ∧ (0 : ℤ) ≤ 1 ∧ 2 < 2 ^ 53) ∧
    solutionSize 2 4 3 1 =
      ((1 : ℤ) : ℚ) * (Nat.choose 4 2 : ℚ) / (Nat.choose 3 2 : ℚ) :=
  ⟨⟨by norm_num, by norm_num, by norm_num, by norm_num⟩,
    C2_amended_theorem 2 4 3 1 (by norm_num) (by norm_num) (by norm_num) 2
      (by norm_num)
      (by rw [show Nat.choose 4 2 = 6 from rfl, show Nat.choose 3 2 = 3 from rfl]
          norm_num)⟩

/-- Claim C3, counterexample: the scip model is not identical to the min
model. At (t, v, k, lambda) = (2, 4, 3, 2) the weight variable of block
{0, 1, 2} is bounded [0, 1] in the scip model but [0, lambda] = [0, 2] in
the min model, a difference beyond the worker-count hint. -/
theorem C3_counterexample :
    (scipModel 4 2 4 3 2).varBounds (Var.weight ({0, 1, 2} : Finset ℕ)) ≠
      (minModel 2 4 3 2).varBounds (Var.weight ({0, 1, 2} : Finset ℕ)) := by
  have hmem : ({0, 1, 2} : Finset ℕ) ∈ potentialBlocks 4 3 := by decide
  show (if ({0, 1, 2} : Finset ℕ) ∈ potentialBlocks 4 3
          then some ((0 : ℚ), (1 : ℚ)) else none) ≠
       (if ({0, 1, 2} : Finset ℕ) ∈ potentialBlocks 4 3
          then some ((0 : ℚ), ((2 : ℤ) : ℚ)) else none)
  rw [if_pos hmem, if_pos hmem]
  intro hcontra
  have := (Prod.mk.injEq .. ▸ (Option.some.injEq .. ▸ hcontra)).2
  norm_num at this

/-- Claim C3, amended: the scip model agrees with the min model on
blocks, tuples, coverage constraints, linking constraints, integrality
flags, indicator bounds, objective, and direction; it differs in exactly
two respects: its weight variables are bounded [0, 1] where the min model
uses [0, lambda], and it carries the worker-count hint cpu_count - 1
where the min model carries none. -/
theorem C3_amended_theorem (nproc t v k : ℕ) (lmb : ℤ) (b : Finset ℕ) :
    (scipModel nproc t v k lmb).blocks = (minModel t v k lmb).blocks ∧
    (scipModel nproc t v k lmb).tuples = (minModel t v k lmb).tuples ∧
    (scipModel nproc t v k lmb).coverage = (minModel t v k lmb).coverage ∧
    (scipModel nproc t v k lmb).linking = (minModel t v k lmb).linking ∧
    (scipModel nproc t v k lmb).varInteger = (minModel t v k lmb).varInteger ∧
    (scipModel nproc t v k lmb).objCoeff = (minModel t v k lmb).objCoeff ∧
    (scipModel nproc t v k lmb).minimize = (minModel t v k lmb).minimize ∧
    (scipModel nproc t v k lmb).varBounds (Var.indicator b) =
      (minModel t v k lmb).varBounds (Var.indicator b) ∧
    (scipModel nproc t v k lmb).varBounds (Var.weight b) =
      (if b ∈ potentialBlocks v k then some ((0 : ℚ), (1 : ℚ)) else none) ∧
    (minModel t v k lmb).varBounds (Var.weight b) =
      (if b ∈ potentialBlocks v k then some ((0 : ℚ), (lmb : ℚ)) else none) ∧
    (scipModel nproc t v k lmb).threads = some ((nproc : ℤ) - 1) ∧
    (minModel t v k lmb).threads = none :=
  ⟨rfl, rfl, rfl, rfl, rfl, rfl, rfl, rfl, rfl, rfl, rfl, rfl⟩

/-- Claim C4: for 0 ≤ t ≤ k ≤ v the universe construction produces the
point set {0, ..., v-1}, exactly C(v,k) candidate blocks (precisely the
k-element subsets of the points), and exactly C(v,t) tuples (precisely the
t-element subsets of the points). -/
theorem C4_universe_counts (t v k : ℕ) (h1 : t ≤ k) (h2 : k ≤ v) :
    (∀ p, p ∈ pointsSet v ↔ p < v) ∧
    (potentialBlocks v k).card = Nat.choose v k ∧
    (∀ b, b ∈ potentialBlocks v k ↔ b ⊆ pointsSet v ∧ b.card = k) ∧
    (tuplesUniverse v t).card = Nat.choose v t ∧
    (∀ s, s ∈ tuplesUniverse v t ↔ s ⊆ pointsSet v ∧ s.card = t) := by
  refine ⟨fun p => Finset.mem_range, ?_, fun b => Finset.mem_powersetCard,
    ?_, fun s => Finset.mem_powersetCard⟩
  · rw [potentialBlocks, Finset.card_powersetCard, pointsSet, Finset.card_range]
  · rw [tuplesUniverse, Finset.card_powersetCard, pointsSet, Finset.card_range]

/-- Claim C4, witness: instantiated at (t, v, k) = (2, 4, 3). -/
theorem C4_universe_counts_witness :
    (2 ≤ 3 ∧ 3 ≤ 4) ∧
    ((∀ p, p ∈ pointsSet 4 ↔ p < 4) ∧
      (potentialBlocks 4 3).card = Nat.choose 4 3 ∧
      (∀ b, b ∈ potentialBlocks 4 3 ↔ b ⊆ pointsSet 4 ∧ b.card = 3) ∧
      (tuplesUniverse 4 2).card = Nat.choose 4 2 ∧
      (∀ s, s ∈ tuplesUniverse 4 2 ↔ s ⊆ pointsSet 4 ∧ s.card = 2)) :=
  ⟨⟨by norm_num, by norm_num⟩,
    C4_universe_counts 2 4 3 (by norm_num) (by norm_num)⟩

/-- Claim C5: in every variant the model carries, for each tuple of the
tuple universe, one coverage constraint whose lower and upper bounds are
both lambda and whose coefficient at the weight variable of block b is 1
when the tuple is contained in b and 0 otherwise (indicator variables
receive coefficient 0), and the number of coverage constraints is the
tuple count C(v,t). -/
theorem C5_coverage_constraints (t v k : ℕ) (lmb : ℤ) (nproc : ℕ)
    (tup b : Finset ℕ) :
    (tvklModel t v k lmb).coverage = coverageConstraint lmb ∧
    (glopModel t v k lmb).coverage = coverageConstraint lmb ∧
    (minModel t v k lmb).coverage = coverageConstraint lmb ∧
    (scipModel nproc t v k lmb).coverage = coverageConstraint lmb ∧
    (coverageConstraint lmb tup).lb = some ((lmb : ℤ) : ℚ) ∧
    (coverageConstraint lmb tup).ub = some ((lmb : ℤ) : ℚ) ∧
    (coverageConstraint lmb tup).coeff (Var.weight b) =
      (if tup ⊆ b then 1 else 0) ∧
    (coverageConstraint lmb tup).coeff (Var.indicator b) = 0 ∧
    (tvklModel t v k lmb).tuples.card = Nat.choose v t ∧
    (glopModel t v k lmb).tuples.card = Nat.choose v t ∧
    (minModel t v k lmb).tuples.card = Nat.choose v t ∧
    (scipModel nproc t v k lmb).tuples.card = Nat.choose v t := by
  refine ⟨rfl, rfl, rfl, rfl, rfl, rfl, rfl, rfl, ?_, ?_, ?_, ?_⟩
  all_goals
    show (tuplesUniverse v t).card = Nat.choose v t
    rw [tuplesUniverse, Finset.card_powersetCard, pointsSet, Finset.card_range]

/-- Claim C6: in both minimal-cardinality variants, every block of the
universe has, besides its continuous weight variable, a binary indicator
variable bounded [0, 1] and marked integer, together with one linking
constraint indicator(b) - weight(b) ≥ 0 (encoding indicator(b) ≥
weight(b)); the objective minimizes the sum of the indicator variables
(coefficient 1 on each indicator, 0 on each weight). -/
theorem C6_indicator_structure (t v k : ℕ) (lmb : ℤ) (nproc : ℕ)
    (b : Finset ℕ) (hb : b ∈ potentialBlocks v k) :
    (minModel t v k lmb).varBounds (Var.weight b) = some ((0 : ℚ), (lmb : ℚ)) ∧
    (minModel t v k lmb).varBounds (Var.indicator b) = some ((0 : ℚ), (1 : ℚ)) ∧
    (minModel t v k lmb).varInteger (Var.indicator b) = true ∧
    (minModel t v k lmb).varInteger (Var.weight b) = false ∧
    (minModel t v k lmb).linking = some linkingConstraint ∧
    (scipModel nproc t v k lmb).linking = some linkingConstraint ∧
    (linkingConstraint b).lb = some 0 ∧
    (linkingConstraint b).ub = none ∧
    (linkingConstraint b).coeff (Var.indicator b) = 1 ∧
    (linkingConstraint b).coeff (Var.weight b) = -1 ∧
    (∀ c : Finset ℕ, c ≠ b →
      (linkingConstraint b).coeff (Var.indicator c) = 0 ∧
      (linkingConstraint b).coeff (Var.weight c) = 0) ∧
    (minModel t v k lmb).objCoeff (Var.indicator b) = 1 ∧
    (minModel t v k lmb).objCoeff (Var.weight b) = 0 ∧
    (minModel t v k lmb).minimize = true ∧
    (scipModel nproc t v k lmb).varBounds (Var.indicator b) =
      some ((0 : ℚ), (1 : ℚ)) ∧
    (scipModel nproc t v k lmb).varInteger (Var.indicator b) = true ∧
    (scipModel nproc t v k lmb).objCoeff (Var.indicator b) = 1 ∧
    (scipModel nproc t v k lmb).objCoeff (Var.weight b) = 0 ∧
    (scipModel nproc t v k lmb).minimize = true := by
  simp [minModel, scipModel, linkingConstraint, hb]

/-- Claim C6, witness: instantiated at (t, v, k, lambda) = (1, 2, 1, 1),
nproc = 4, b = {0}, a block of the universe. -/
theorem C6_indicator_structure_witness :
    ({0} : Finset ℕ) ∈ potentialBlocks 2 1 ∧
    ((minModel 1 2 1 1).varBounds (Var.weight {0}) =
        some ((0 : ℚ), ((1 : ℤ) : ℚ)) ∧
      (minModel 1 2 1 1).varBounds (Var.indicator {0}) =
        some ((0 : ℚ), (1 : ℚ)) ∧
      (minModel 1 2 1 1).varInteger (Var.indicator {0}) = true ∧
      (minModel 1 2 1 1).varInteger (Var.weight {0}) = false ∧
      (minModel 1 2 1 1).linking = some linkingConstraint ∧
      (scipModel 4 1 2 1 1).linking = some linkingConstraint ∧
      (linkingConstraint {0}).lb = some 0 ∧
      (linkingConstraint {0}).ub = none ∧
      (linkingConstraint {0}).coeff (Var.indicator {0}) = 1 ∧
      (linkingConstraint {0}).coeff (Var.weight {0}) = -1 ∧
      (∀ c : Finset ℕ, c ≠ {0} →
        (linkingConstraint {0}).coeff (Var.indicator c) = 0 ∧
        (linkingConstraint {0}).coeff (Var.weight c) = 0) ∧
      (minModel 1 2 1 1).objCoeff (Var.indicator {0}) = 1 ∧
      (minModel 1 2 1 1).objCoeff (Var.weight {0}) = 0 ∧
      (minModel 1 2 1 1).minimize = true ∧
      (scipModel 4 1 2 1 1).varBounds (Var.indicator {0}) =
        some ((0 : ℚ), (1 : ℚ)) ∧
      (scipModel 4 1 2 1 1).varInteger (Var.indicator {0}) = true ∧
      (scipModel 4 1 2 1 1).objCoeff (Var.indicator {0}) = 1 ∧
      (scipModel 4 1 2 1 1).objCoeff (Var.weight {0}) = 0 ∧
      (scipModel 4 1 2 1 1).minimize = true) :=
  ⟨by decide, C6_indicator_structure 1 2 1 1 4 {0} (by decide)⟩

/-- Claim C7: the claim says that on a wrong argument count or a
non-integer argument the program prints the usage message and the parse
exception text and then returns without raising; the code instead prints
both messages and then enters the second try block with t, v, k, lmb
unbound, so evaluating the optimizer call raises an uncaught
UnboundLocalError (not caught by the except ValueError handler).
Evaluated here at argv[1:] tokens 3, x, 4, 1 where x does not parse. -/
theorem C7_code_eval :
    common_main [some 3, none, some 4, some 1]
        (fun _ _ _ _ => Except.ok none) =
      MainOutcome.uncaughtUnboundLocal
        [PrintEvent.usage, PrintEvent.parseExceptionText] := rfl

/-- Claim C8: the extracted fuzzy design keeps exactly the blocks of the
universe whose bridged rational weight is nonzero, with that weight as
value, so it never contains a zero-weight block; the minimal-cardinality
variants always return designs produced by that extraction, and the
total-weight variants do so on the parameter domain where their bound
computation succeeds, t ≤ k (with k ≤ v and the magnitude of
lmb * comb(v, t) below the double overflow range, so the float model is
exact there; for t > k those two variants raise ZeroDivisionError and
return nothing at all, so every design they do return also comes from
the extraction). -/
theorem C8_no_zero_weights (t v k : ℕ) (lmb : ℤ) (o : Oracle)
    (blocks : Finset (Finset ℕ)) (vals : Finset ℕ → ℚ) (b : Finset ℕ) (w : ℚ)
    (hk : k ≤ v) (hmag : lmb.natAbs * Nat.choose v t < 2 ^ 1020) :
    ((b, w) ∈ extractDesign blocks vals ↔
      b ∈ blocks ∧ w = limitDen1M (vals b) ∧ w ≠ 0) ∧
    find_min_fuzzy_design t v k lmb (some o) =
      Except.ok (some (limitDen1M o.objValue,
        extractDesign (potentialBlocks v k) o.value)) ∧
    find_scip_fuzzy_design t v k lmb (some o) =
      Except.ok (some (limitDen1M o.objValue,
        extractDesign (potentialBlocks v k) o.value)) ∧
    (t ≤ k →
      (find_tvkl_fuzzy_design t v k lmb (some o) = Except.ok none ∨
        find_tvkl_fuzzy_design t v k lmb (some o) =
          Except.ok (some (solutionSize t v k lmb,
            extractDesign (potentialBlocks v k) o.value)))) ∧
    (t ≤ k →
      (find_csp_fuzzy_design t v k lmb (some o) = Except.ok none ∨
        find_csp_fuzzy_design t v k lmb (some o) =
          Except.ok (some (solutionSize t v k lmb,
            extractDesign (potentialBlocks v k) o.value)))) := by
  refine ⟨?_, rfl, rfl, ?_, ?_⟩
  · constructor
    · intro hmem
      rw [extractDesign] at hmem
      obtain ⟨a, ha, heq⟩ := Finset.mem_image.mp hmem
      obtain ⟨hab, hval⟩ := Finset.mem_filter.mp ha
      obtain ⟨hA, hB⟩ := Prod.mk.injEq .. |>.mp heq
      subst hA
      exact ⟨hab, hB.symm, hB ▸ hval⟩
    · rintro ⟨hb, hw, hnz⟩
      rw [extractDesign]
      exact Finset.mem_image.mpr
        ⟨b, Finset.mem_filter.mpr ⟨hb, by rw [← hw]; exact hnz⟩, by rw [hw]⟩
  · intro ht
    have hch : ¬ (Nat.choose k t = 0) := (Nat.choose_pos ht).ne'
    simp only [find_tvkl_fuzzy_design, if_neg hch]
    by_cases h : limitDen1M o.objValue = solutionSize t v k lmb
    · right
      rw [if_neg (by simpa using h)]
    · left
      rw [if_pos (by simpa using h)]
  · intro ht
    have hch : ¬ (Nat.choose k t = 0) := (Nat.choose_pos ht).ne'
    simp only [find_csp_fuzzy_design, if_neg hch]
    by_cases h : limitDen1M o.objValue = solutionSize t v k lmb
    · right
      rw [if_neg (by simpa using h)]
    · left
      rw [if_pos (by simpa using h)]

/-- Claim C8, witness: instantiated at (t, v, k, lambda) = (1, 1, 1, 1)
with the concrete engine report zeroOracle, exercising the domain
hypotheses through the min-variant conjunct. -/
theorem C8_no_zero_weights_witness :
    ((1 : ℕ) ≤ 1 ∧ (1 : ℤ).natAbs * Nat.choose 1 1 < 2 ^ 1020) ∧
    find_min_fuzzy_design 1 1 1 1 (some zeroOracle) =
      Except.ok (some (limitDen1M zeroOracle.objValue,
        extractDesign (potentialBlocks 1 1) zeroOracle.value)) :=
  ⟨⟨le_refl 1, by norm_num⟩,
    (C8_no_zero_weights 1 1 1 1 zeroOracle ∅ (fun _ => 0) ∅ 0 (le_refl 1)
      (by norm_num)).2.1⟩

/-- Claim C9: in every variant, when no solver engine can be created the
function raises ValueError rather than returning an absence result. -/
theorem C9_engine_failure (t v k : ℕ) (lmb : ℤ) :
    find_tvkl_fuzzy_design t v k lmb none =
      Except.error (PyError.valueError "Could not create solver.") ∧
    find_csp_fuzzy_design t v k lmb none =
      Except.error (PyError.valueError "Could not create solver.") ∧
    find_min_fuzzy_design t v k lmb none =
      Except.error (PyError.valueError "Could not create solver.") ∧
    find_scip_fuzzy_design t v k lmb none =
      Except.error (PyError.valueError "Could not create SCIP solver.") :=
  ⟨rfl, rfl, rfl, rfl⟩

/-- Claim C10: no variant validates 0 ≤ t ≤ k ≤ v eagerly. For v ≥ 0 with
k > v the block universe is silently empty (and likewise the tuple
universe for t > v) and construction proceeds; a negative k or t raises
ValueError from the subset generator; a negative v behaves as v = 0; and
there is no dedicated precondition error anywhere. The last conjunct
shows the solver model is still built over the degenerate empty block
universe. -/
theorem C10_no_precondition_validation (t v k lmb : ℤ) :
    (0 ≤ v → v < k → 0 ≤ t →
      buildUniverse t v k =
        Except.ok (pointsZ v, (∅ : Finset (Finset ℕ)),
          (pointsZ v).powersetCard t.toNat)) ∧
    (0 ≤ v → v < t → 0 ≤ k →
      buildUniverse t v k =
        Except.ok (pointsZ v, (pointsZ v).powersetCard k.toNat,
          (∅ : Finset (Finset ℕ)))) ∧
    (k < 0 →
      buildUniverse t v k =
        Except.error (PyError.valueError "r must be non-negative")) ∧
    (0 ≤ k → t < 0 →
      buildUniverse t v k =
        Except.error (PyError.valueError "r must be non-negative")) ∧
    (v < 0 → buildUniverse t v k = buildUniverse t 0 k) ∧
    (∀ t2 v2 k2 : ℕ, v2 < k2 →
      (glopModel t2 v2 k2 lmb).blocks = (∅ : Finset (Finset ℕ)) ∧
      (minModel t2 v2 k2 lmb).blocks = (∅ : Finset (Finset ℕ))) := by
  refine ⟨?_, ?_, ?_, ?_, ?_, ?_⟩
  · intro hv hk ht
    have hempty : (pointsZ v).powersetCard k.toNat = ∅ := by
      rw [Finset.powersetCard_eq_empty, pointsZ, Finset.card_range]
      omega
    simp only [buildUniverse, combinationsSets, if_neg (by omega : ¬ k < 0),
      if_neg (by omega : ¬ t < 0), hempty]
    rfl
  · intro hv ht hk
    have hempty : (pointsZ v).powersetCard t.toNat = ∅ := by
      rw [Finset.powersetCard_eq_empty, pointsZ, Finset.card_range]
      omega
    simp only [buildUniverse, combinationsSets, if_neg (by omega : ¬ k < 0),
      if_neg (by omega : ¬ t < 0), hempty]
    rfl
  · intro hk
    simp only [buildUniverse, combinationsSets, if_pos hk]
    rfl
  · intro hk ht
    simp only [buildUniverse, combinationsSets, if_neg (by omega : ¬ k < 0),
      if_pos ht]
    rfl
  · intro hv
    have hpts : pointsZ v = pointsZ 0 := by
      rw [pointsZ, pointsZ, Int.toNat_of_nonpos (by omega)]
      norm_num
    simp only [buildUniverse, hpts]
  · intro t2 v2 k2 hlt
    have hempty : potentialBlocks v2 k2 = ∅ := by
      rw [potentialBlocks, Finset.powersetCard_eq_empty, pointsSet,
        Finset.card_range]
      omega
    exact ⟨hempty, hempty⟩

/-- Claim C10, witness: for (t, v, k) = (1, 2, 3) the block universe is
empty yet construction succeeds; for t = -1 the generator raises; for
v = -5 the behaviour matches v = 0. -/
theorem C10_no_precondition_validation_witness :
    buildUniverse 1 2 3 =
      Except.ok (pointsZ 2, (∅ : Finset (Finset ℕ)),
        (pointsZ 2).powersetCard (1 : ℤ).toNat) ∧
    buildUniverse (-1) 2 1 =
      Except.error (PyError.valueError "r must be non-negative") ∧
    buildUniverse 0 (-5) 1 = buildUniverse 0 0 1 ∧
    (glopModel 1 2 3 1).blocks = (∅ : Finset (Finset ℕ)) :=
  ⟨(C10_no_precondition_validation 1 2 3 1).1 (by norm_num) (by norm_num)
      (by norm_num),
    (C10_no_precondition_validation (-1) 2 1 1).2.2.2.1 (by norm_num)
      (by norm_num),
    (C10_no_precondition_validation 0 (-5) 1 1).2.2.2.2.1 (by norm_num),
    ((C10_no_precondition_validation 0 0 0 1).2.2.2.2.2 1 2 3
      (by norm_num)).1⟩

end FuzzyDesigns
